import Mathlib

/-!
Shallow embedding of `src/app.py` (a self-healing-infrastructure co-pilot):
the TinyRAG keyword retriever, the prompt assembly of `agentic_self_healing`,
and the response handling of `gemini_generate`, followed by theorems checking
the specification's claims against these definitions.
-/

/-! ## Python string primitives used by the source -/

/-- Anchored comparison underlying Python's substring test: `beginsWith hay needle`
is `true` when `needle` is an initial segment of `hay`. -/
def beginsWith : List Char → List Char → Bool
  | _, [] => true
  | [], _ :: _ => false
  | a :: ta, b :: tb => a == b && beginsWith ta tb

/-- Characters remaining after removing the leading whitespace run. -/
def dropLeadingWs : List Char → List Char
  | [] => []
  | c :: cs => if c.isWhitespace then dropLeadingWs cs else c :: cs

/-- Embedding of Python's `str.strip()`: remove whitespace from both ends. -/
def stripStr (s : String) : String :=
  String.mk ((dropLeadingWs ((dropLeadingWs s.data).reverse)).reverse)

/-- Embedding of Python's substring test `needle in hay` for strings, over the
character lists of the two strings. -/
def containsSub (hay needle : List Char) : Bool :=
  (List.range (hay.length + 1)).any fun i => beginsWith (hay.drop i) needle

/-- Substring test lifted to `String`, embedding Python's `needle in hay`. -/
def strContainsSub (hay needle : String) : Bool :=
  containsSub hay.data needle.data

/-- The character list of `s.lower()`: every character lower-cased. -/
def lowerChars (s : String) : List Char :=
  s.data.map Char.toLower

/-- Accumulator worker for Python's `str.split()` with no separator argument:
split on runs of whitespace, discarding empty pieces. -/
def splitWsAux : List Char → List Char → List (List Char)
  | [], acc => if acc.isEmpty then [] else [acc.reverse]
  | c :: cs, acc =>
    if c.isWhitespace then
      if acc.isEmpty then splitWsAux cs [] else acc.reverse :: splitWsAux cs []
    else
      splitWsAux cs (c :: acc)

/-- Embedding of `query.lower().split()` from `TinyRAG.retrieve` (src/app.py line 26):
the whitespace-separated tokens of the lower-cased query. -/
def tokenize (query : String) : List (List Char) :=
  splitWsAux (lowerChars query) []

/-! ## TinyRAG (src/app.py lines 15-33) -/

/-- The knowledge store object: `TinyRAG` holds the list `self.docs`. -/
structure TinyRAG where
  docs : List String

/-- `TinyRAG.__init__` (src/app.py lines 16-23): the fixed five-fact store. -/
def TinyRAG.init : TinyRAG :=
  ⟨["High CPU usage may indicate process bottlenecks.",
    "Disk space alerts can lead to service crashes.",
    "Network latency spikes may degrade performance.",
    "Memory leaks can cause application instability.",
    "Automatic remediation can restart services or free resources."]⟩

/-- Score of one document (src/app.py line 29):
`sum(1 for w in query_words if w in doc.lower())` — one increment per
occurrence of a token in the query-word sequence that is a substring of the
lower-cased document. -/
def docScore (queryWords : List (List Char)) (doc : String) : Nat :=
  queryWords.countP fun w => containsSub (lowerChars doc) w

/-- The `scored` list built by the loop in src/app.py lines 27-31: pairs
`(score, doc)` for exactly the documents with positive score, in store order. -/
def scoredDocs (docs : List String) (query : String) : List (Nat × String) :=
  (docs.map fun d => (docScore (tokenize query) d, d)).filter fun x => decide (0 < x.1)

/-- Stable insertion into a list sorted by descending score: the inserted
element (earlier in the original list) passes only strictly greater scores,
so it lands before later elements of equal score. -/
def insertDesc (x : Nat × String) : List (Nat × String) → List (Nat × String)
  | [] => [x]
  | y :: ys => if y.1 ≤ x.1 then x :: y :: ys else y :: insertDesc x ys

/-- Embedding of `scored.sort(key=lambda x: -x[0])` (src/app.py line 32):
Python's list sort is stable, and a stable descending sort by score is the
unique reordering that is sorted by score and preserves the relative order of
equal-score entries; this insertion sort computes it. -/
def sortDesc : List (Nat × String) → List (Nat × String)
  | [] => []
  | x :: xs => insertDesc x (sortDesc xs)

/-- `TinyRAG.retrieve` (src/app.py lines 25-33) with its default `k = 3`:
score the documents, keep the positive ones, stable-sort by descending score,
take the first `k`, and drop the scores. -/
def TinyRAG.retrieve (r : TinyRAG) (query : String) (k : Nat := 3) : List String :=
  ((sortDesc (scoredDocs r.docs query)).take k).map Prod.snd

/-- The method `retrieve` as a state transformer on the store object: the body
(src/app.py lines 25-33) only reads `self.docs` and performs no assignment to
it, so the post-state is the receiver unchanged. -/
def TinyRAG.retrieveSt (r : TinyRAG) (query : String) (k : Nat := 3) :
    List String × TinyRAG :=
  (r.retrieve query k, r)

/-- Written from the spec's wording, for comparison with `docScore`
(refinement check): the number of DISTINCT lower-cased query tokens that occur
as a substring of the lower-cased fact text. -/
def specScoreDistinct (query fact : String) : Nat :=
  ((tokenize query).dedup.filter fun w => containsSub (lowerChars fact) w).length

/-! ## Prompt assembly (src/app.py lines 58-78) -/

/-- Embedding of `" ".join(facts)` (src/app.py line 59). -/
def joinContext (facts : List String) : String :=
  String.intercalate " " facts

/-- Text of the f-string template before the interpolated incident. -/
def promptHeader : String :=
  "\nYou are an expert Data Center AI assistant for self-healing infrastructure.\nAnalyze the following incident or system log and provide a proactive remediation plan.\n\nIncident:\n"

/-- Text of the f-string template between the incident and the context. -/
def promptMid : String :=
  "\n\nKnowledge Base:\n"

/-- Text of the f-string template after the interpolated context. -/
def promptTail : String :=
  "\n\nTasks:\n1. Predict potential issues\n2. Generate an automatic remediation plan\n3. Suggest monitoring improvements\n4. Provide concise explanation for each step\n\nReturn a structured, actionable report.\n"

/-- The prompt f-string of `agentic_self_healing` (src/app.py lines 60-77)
as a function of the interpolated incident and context strings. -/
def buildPrompt (incident context : String) : String :=
  promptHeader ++ incident ++ promptMid ++ context ++ promptTail

/-! ## Gemini client (src/app.py lines 36-55)

The response body is abstracted as a parsed JSON value (what `resp.json()`
returns), and the network boundary as a `NetResult`: either an exception inside
the `try` block (caught by the source) or a successfully parsed value. The
extraction code after the `try` runs under Python dynamic typing, so each
primitive step is embedded in `Except PyErr`, where `.error` models an uncaught
Python exception escaping `gemini_generate`. -/

/-- Parsed JSON values, as produced by `resp.json()`. Numbers are modelled as
integers; only their truthiness is ever consumed by the source. -/
inductive Json where
  | null : Json
  | bool : Bool → Json
  | num : Int → Json
  | str : String → Json
  | arr : List Json → Json
  | obj : List (String × Json) → Json

/-- Kinds of Python exceptions the extraction code can raise. -/
inductive PyErr where
  | typeError : PyErr
  | attributeError : PyErr
  | keyError : PyErr
  | indexError : PyErr

/-- Dictionary lookup on the field list of a JSON object. -/
def lookupField (fs : List (String × Json)) (key : String) : Option Json :=
  (fs.find? fun f => f.1 == key).map fun f => f.2

/-- Python `==` between a JSON value and a string literal: only equal strings
compare equal (no other JSON value equals a string). -/
def isStrEq : Json → String → Bool
  | .str t, s => t == s
  | _, _ => false

/-- Python truthiness of a parsed JSON value. -/
def truthy : Json → Bool
  | .null => false
  | .bool b => b
  | .num n => n != 0
  | .str s => s != ""
  | .arr xs => !xs.isEmpty
  | .obj fs => !fs.isEmpty

/-- Python `key in x` for a string key: key membership for dicts, element
membership for lists, substring test for strings; `TypeError` otherwise. -/
def pyContainsKey (key : String) : Json → Except PyErr Bool
  | .obj fs => .ok (lookupField fs key).isSome
  | .arr xs => .ok (xs.any fun x => isStrEq x key)
  | .str s => .ok (containsSub s.data key.data)
  | _ => .error .typeError

/-- Python `x[key]` for a string key: dict item access (`KeyError` when the
key is missing); `TypeError` on any non-dict value. -/
def pyGetItemStr (key : String) : Json → Except PyErr Json
  | .obj fs =>
    match lookupField fs key with
    | some v => .ok v
    | none => .error .keyError
  | _ => .error .typeError

/-- Python `x.get(key, dflt)`: only dicts have the `get` attribute
(`AttributeError` otherwise). -/
def pyGetDefault (key : String) (dflt : Json) : Json → Except PyErr Json
  | .obj fs => .ok ((lookupField fs key).getD dflt)
  | _ => .error .attributeError

/-- Python `x[0]`: list and string indexing succeed (strings yield a one-character
string), dicts raise `KeyError` (JSON object keys are strings, never `0`), other
values raise `TypeError`. -/
def pyIndexZero : Json → Except PyErr Json
  | .arr (x :: _) => .ok x
  | .arr [] => .error .indexError
  | .str s =>
    match s.data with
    | c :: _ => .ok (.str (String.mk [c]))
    | [] => .error .indexError
  | .obj _ => .error .keyError
  | _ => .error .typeError

/-- Python `for p in x`: lists iterate elements, strings iterate one-character
strings, dicts iterate keys; other values raise `TypeError`. -/
def pyIter : Json → Except PyErr (List Json)
  | .arr xs => .ok xs
  | .str s => .ok (s.data.map fun c => Json.str (String.mk [c]))
  | .obj fs => .ok (fs.map fun f => Json.str f.1)
  | _ => .error .typeError

/-- The loop of src/app.py lines 52-54:
`for p in parts: if "text" in p and p["text"]: return p["text"].strip()`.
Returns `some` the stripped text on the first hit, `none` when the loop falls
through, `.error` when a step raises. -/
def extractFromParts : List Json → Except PyErr (Option String)
  | [] => .ok none
  | p :: ps =>
    match pyContainsKey "text" p with
    | .error e => .error e
    | .ok false => extractFromParts ps
    | .ok true =>
      match pyGetItemStr "text" p with
      | .error e => .error e
      | .ok t =>
        if truthy t then
          match t with
          | .str s => .ok (some (stripStr s))
          | _ => .error .attributeError
        else extractFromParts ps

/-- The fixed fallback string of src/app.py line 55. -/
def noUsableTextFallback : String := "⚠️ Gemini API returned no usable text."

/-- The response handling of `gemini_generate` after a successful parse
(src/app.py lines 49-55), step by step under Python dynamic typing. -/
def geminiExtract (data : Json) : Except PyErr String :=
  match pyContainsKey "candidates" data with
  | .error e => .error e
  | .ok false => .ok noUsableTextFallback
  | .ok true =>
    match pyGetItemStr "candidates" data with
    | .error e => .error e
    | .ok cs =>
      if truthy cs then
        match pyIndexZero cs with
        | .error e => .error e
        | .ok cand =>
          match pyGetDefault "content" (.obj []) cand with
          | .error e => .error e
          | .ok content =>
            match pyGetDefault "parts" (.arr []) content with
            | .error e => .error e
            | .ok parts =>
              match pyIter parts with
              | .error e => .error e
              | .ok ps =>
                match extractFromParts ps with
                | .error e => .error e
                | .ok (some s) => .ok s
                | .ok none => .ok noUsableTextFallback
      else .ok noUsableTextFallback

/-- Outcome of the `try` block of src/app.py lines 43-47: either some exception
was raised by `requests.post` or `resp.json()` (carrying its message), or the
body parsed to a JSON value. -/
inductive NetResult where
  | failure : String → NetResult
  | success : Json → NetResult

/-- The model name constant of src/app.py line 8. -/
def MODEL_NAME : String := "gemini-2.0-flash-lite"

/-- The endpoint URL constant of src/app.py line 9. -/
def API_URL : String :=
  "https://generativelanguage.googleapis.com/v1beta/models/" ++ MODEL_NAME ++ ":generateContent"

/-- `gemini_generate` (src/app.py lines 36-55), with the network boundary
abstracted as a `NetResult`; a caught exception yields the warning string of
line 47, and `.error` in the result models an exception raised uncaught by the
extraction code. -/
def gemini_generate (api_key prompt : String) (max_tokens : Nat := 300)
    (net : NetResult) : Except PyErr String :=
  match net with
  | .failure e => .ok ("⚠️ Network/Request error: " ++ e)
  | .success data => geminiExtract data

/-- `agentic_self_healing` (src/app.py lines 58-78): retrieve context with the
default `k`, join it, build the prompt, and call the client with
`max_tokens=350`. -/
def agentic_self_healing (api_key incident : String) (rag : TinyRAG)
    (net : NetResult) : Except PyErr String :=
  gemini_generate api_key (buildPrompt incident (joinContext (rag.retrieve incident))) 350 net

/-! ## Well-typedness predicates over responses (used as hypotheses) -/

/-- A part of a candidate is well-typed when it is an object whose `text`
field, if present, is a string. -/
def wellTypedPart : Json → Bool
  | .obj pfs =>
    match lookupField pfs "text" with
    | none => true
    | some (.str _) => true
    | some _ => false
  | _ => false

/-- A first candidate is well-typed when it is an object whose `content`
(defaulting to an empty object) is an object, whose `parts` (defaulting to an
empty list) is a list of well-typed parts. -/
def wellTypedCand : Json → Bool
  | .obj cfs =>
    match (lookupField cfs "content").getD (.obj []) with
    | .obj ccfs =>
      match (lookupField ccfs "parts").getD (.arr []) with
      | .arr ps => ps.all wellTypedPart
      | _ => false
    | _ => false
  | _ => false

/-- A parsed response is well-typed when it is a JSON object whose
`candidates` field, if present, is a list that is empty or has a well-typed
first element. -/
def wellTypedResponse : Json → Bool
  | .obj fs =>
    match lookupField fs "candidates" with
    | none => true
    | some (.arr []) => true
    | some (.arr (cand :: _)) => wellTypedCand cand
    | some _ => false
  | _ => false

/-- A network outcome is well-typed when a caught failure occurred or the
parsed body is a well-typed response. -/
def netWellTyped : NetResult → Bool
  | .failure _ => true
  | .success d => wellTypedResponse d

/-- The `content`/`parts` path of a candidate, with the source's defaults:
`some ps` when the candidate is an object whose `content` (default empty
object) is an object and whose `parts` (default empty list) is the list `ps`. -/
def partsPath : Json → Option (List Json)
  | .obj cfs =>
    match (lookupField cfs "content").getD (.obj []) with
    | .obj ccfs =>
      match (lookupField ccfs "parts").getD (.arr []) with
      | .arr ps => some ps
      | _ => none
    | _ => none
  | _ => none

/-- A part that yields no usable text: an object whose `text` field is absent
or the empty string. -/
def noUsableText : Json → Bool
  | .obj pfs =>
    match lookupField pfs "text" with
    | none => true
    | some (.str s) => decide (s = "")
    | some _ => false
  | _ => false

/-! ## Helper lemmas: substring search -/

theorem beginsWith_nil (t : List Char) : beginsWith t [] = true := by
  cases t <;> rfl

theorem beginsWith_append (s t : List Char) : beginsWith (s ++ t) s = true := by
  induction s with
  | nil => simpa using beginsWith_nil t
  | cons c cs ih => simp [beginsWith, ih]

theorem containsSub_middle (a s b : List Char) : containsSub (a ++ (s ++ b)) s = true := by
  unfold containsSub
  apply List.any_eq_true.mpr
  refine ⟨a.length, List.mem_range.mpr ?_, ?_⟩
  · simp only [List.length_append]
    omega
  · rw [List.drop_left]
    exact beginsWith_append s b

theorem strData_append (s t : String) : (s ++ t).data = s.data ++ t.data := by
  cases s; cases t; rfl

theorem strContainsSub_parts (hay s : String) (a b : List Char)
    (h : hay.data = a ++ (s.data ++ b)) : strContainsSub hay s = true := by
  unfold strContainsSub
  rw [h]
  exact containsSub_middle a s.data b

/-! ## Helper lemmas: the stable descending sort -/

theorem insertDesc_perm (x : Nat × String) (l : List (Nat × String)) :
    List.Perm (insertDesc x l) (x :: l) := by
  induction l with
  | nil => exact List.Perm.refl _
  | cons y ys ih =>
    by_cases hyx : y.1 ≤ x.1
    · simp only [insertDesc, if_pos hyx]
      exact List.Perm.refl _
    · simp only [insertDesc, if_neg hyx]
      exact (ih.cons y).trans (List.Perm.swap x y ys)

theorem sortDesc_perm (l : List (Nat × String)) : List.Perm (sortDesc l) l := by
  induction l with
  | nil => exact List.Perm.refl _
  | cons x xs ih => exact (insertDesc_perm x (sortDesc xs)).trans (ih.cons x)

theorem insertDesc_pairwise (x : Nat × String) (l : List (Nat × String))
    (h : l.Pairwise fun a b => b.1 ≤ a.1) :
    (insertDesc x l).Pairwise fun a b => b.1 ≤ a.1 := by
  induction l with
  | nil => simp [insertDesc]
  | cons y ys ih =>
    rw [List.pairwise_cons] at h
    by_cases hyx : y.1 ≤ x.1
    · simp only [insertDesc, if_pos hyx]
      refine List.Pairwise.cons ?_ (List.Pairwise.cons h.1 h.2)
      intro z hz
      rcases List.mem_cons.mp hz with rfl | hz
      · exact hyx
      · exact le_trans (h.1 z hz) hyx
    · simp only [insertDesc, if_neg hyx]
      refine List.Pairwise.cons ?_ (ih h.2)
      intro z hz
      have hz' := (insertDesc_perm x ys).mem_iff.mp hz
      rcases List.mem_cons.mp hz' with rfl | hz'
      · omega
      · exact h.1 z hz'

theorem sortDesc_pairwise (l : List (Nat × String)) :
    (sortDesc l).Pairwise fun a b => b.1 ≤ a.1 := by
  induction l with
  | nil => simp [sortDesc]
  | cons x xs ih => exact insertDesc_pairwise x (sortDesc xs) ih

theorem insertDesc_filter (x : Nat × String) (l : List (Nat × String)) (s : Nat) :
    (insertDesc x l).filter (fun y => decide (y.1 = s))
      = if x.1 = s then x :: l.filter (fun y => decide (y.1 = s))
        else l.filter (fun y => decide (y.1 = s)) := by
  induction l with
  | nil =>
    by_cases hxs : x.1 = s
    · simp [insertDesc, List.filter_cons, hxs]
    · simp [insertDesc, List.filter_cons, hxs]
  | cons y ys ih =>
    by_cases hyx : y.1 ≤ x.1
    · simp only [insertDesc, if_pos hyx, List.filter_cons]
      by_cases hxs : x.1 = s
      · simp [hxs]
      · simp [hxs]
    · simp only [insertDesc, if_neg hyx, List.filter_cons, ih]
      by_cases hxs : x.1 = s
      · have hy : ¬ y.1 = s := by omega
        simp [hxs, hy]
      · simp [hxs]

theorem sortDesc_filter (l : List (Nat × String)) (s : Nat) :
    (sortDesc l).filter (fun y => decide (y.1 = s))
      = l.filter (fun y => decide (y.1 = s)) := by
  induction l with
  | nil => rfl
  | cons x xs ih =>
    simp only [sortDesc, insertDesc_filter, ih, List.filter_cons]
    by_cases hxs : x.1 = s
    · simp [hxs]
    · simp [hxs]

/-! ## Helper lemmas: the scored list -/

theorem scoredDocs_map_snd (docs : List String) (q : String) :
    (scoredDocs docs q).map Prod.snd
      = docs.filter fun d => decide (0 < docScore (tokenize q) d) := by
  induction docs with
  | nil => rfl
  | cons d ds ih =>
    simp only [scoredDocs, List.map_cons, List.filter_cons] at ih ⊢
    by_cases h : 0 < docScore (tokenize q) d
    · simp [h, ih]
    · simp [h, ih]

theorem retrieve_len_le_k (r : TinyRAG) (q : String) (k : Nat) :
    (r.retrieve q k).length ≤ k := by
  simp only [TinyRAG.retrieve, List.length_map, List.length_take]
  omega

theorem retrieve_len_le_docs (r : TinyRAG) (q : String) (k : Nat) :
    (r.retrieve q k).length ≤ r.docs.length := by
  simp only [TinyRAG.retrieve, List.length_map, List.length_take]
  have h1 : (sortDesc (scoredDocs r.docs q)).length = (scoredDocs r.docs q).length :=
    (sortDesc_perm _).length_eq
  have h2 : (scoredDocs r.docs q).length ≤ r.docs.length := by
    have := List.length_filter_le (fun x => decide (0 < x.1))
      (r.docs.map fun d => (docScore (tokenize q) d, d))
    simpa [scoredDocs] using this
  omega

theorem retrieve_sub_docs_filter (r : TinyRAG) (q : String) (k : Nat) :
    List.Sublist (r.retrieve q k) (((sortDesc (scoredDocs r.docs q)).map Prod.snd)) := by
  exact (List.take_sublist k _).map Prod.snd

theorem sortDesc_map_snd_perm (l : List (Nat × String)) :
    List.Perm ((sortDesc l).map Prod.snd) (l.map Prod.snd) :=
  (sortDesc_perm l).map Prod.snd

/-! ## Claim theorems: retriever and prompt -/

/-- C2 counterexample: for the stored fact "Disk space alerts can lead to
service crashes." and the query "disk disk", the retriever assigns score 2
(one increment per occurrence of the token in the query sequence), while the
number of distinct matching query tokens is 1 — so the score is NOT the number
of distinct query tokens found in the fact, and a repeated token contributes
more than one. -/
theorem retrieve_score_multiplicity_cex :
    "Disk space alerts can lead to service crashes." ∈ TinyRAG.init.docs
    ∧ (2, "Disk space alerts can lead to service crashes.")
        ∈ scoredDocs TinyRAG.init.docs "disk disk"
    ∧ docScore (tokenize "disk disk") "Disk space alerts can lead to service crashes." = 2
    ∧ ¬ docScore (tokenize "disk disk") "Disk space alerts can lead to service crashes."
        = specScoreDistinct "disk disk" "Disk space alerts can lead to service crashes." := by
  refine ⟨by decide, by decide, by decide, by decide⟩

/-- C2 amended: the score the retriever assigns to a fact is the count of
query-token occurrences (with multiplicity in the whitespace-split token
sequence of the lower-cased query) that occur as substrings of the lower-cased
fact; when the query's tokens are pairwise distinct this coincides with the
number of distinct matching tokens. -/
theorem docScore_eq_distinct_of_nodup (q fact : String)
    (h : (tokenize q).Nodup) :
    docScore (tokenize q) fact = specScoreDistinct q fact := by
  unfold docScore specScoreDistinct
  rw [List.dedup_eq_self.mpr h, List.countP_eq_length_filter]

theorem docScore_eq_distinct_witness :
    (tokenize "disk space alerts").Nodup
    ∧ docScore (tokenize "disk space alerts")
          "Disk space alerts can lead to service crashes."
        = specScoreDistinct "disk space alerts"
          "Disk space alerts can lead to service crashes." :=
  ⟨by decide,
   docScore_eq_distinct_of_nodup "disk space alerts"
     "Disk space alerts can lead to service crashes." (by decide)⟩

/-- C3: for every query and every k, the scored list under the returned facts
is sorted by score in descending order, and for every score value the facts of
the result carrying that score, read in result order, form a sublist of the
store's docs sequence — ties are stable by store order. -/
theorem retrieve_sorted_and_stable (r : TinyRAG) (q : String) (k : Nat) :
    TinyRAG.retrieve r q k = ((sortDesc (scoredDocs r.docs q)).take k).map Prod.snd
    ∧ List.Pairwise (fun a b => b.1 ≤ a.1) ((sortDesc (scoredDocs r.docs q)).take k)
    ∧ ∀ s : Nat, List.Sublist
        ((((sortDesc (scoredDocs r.docs q)).take k).filter fun x => decide (x.1 = s)).map
          Prod.snd)
        r.docs := by
  refine ⟨rfl, List.Pairwise.sublist (List.take_sublist k _) (sortDesc_pairwise _), ?_⟩
  intro s
  have h1 : List.Sublist
      (((sortDesc (scoredDocs r.docs q)).take k).filter fun x => decide (x.1 = s))
      ((sortDesc (scoredDocs r.docs q)).filter fun x => decide (x.1 = s)) :=
    (List.take_sublist k _).filter _
  rw [sortDesc_filter] at h1
  have h3 := (h1.trans (List.filter_sublist _)).map Prod.snd
  have h4 : List.Sublist ((scoredDocs r.docs q).map Prod.snd) r.docs := by
    rw [scoredDocs_map_snd]
    exact List.filter_sublist _
  exact h3.trans h4

/-- C4: for every query and every k, the result of retrieve has length at most
k and at most the size of the knowledge store. -/
theorem retrieve_length_le (r : TinyRAG) (q : String) (k : Nat) :
    (r.retrieve q k).length ≤ k ∧ (r.retrieve q k).length ≤ r.docs.length :=
  ⟨retrieve_len_le_k r q k, retrieve_len_le_docs r q k⟩

/-- C5: retrieve returns the empty sequence when k = 0, and also when no
lower-cased query token occurs as a substring of any lower-cased stored fact
(in particular for the empty query). -/
theorem retrieve_empty_cases (r : TinyRAG) (q : String) (k : Nat) :
    (k = 0 → r.retrieve q k = [])
    ∧ ((∀ w ∈ tokenize q, ∀ d ∈ r.docs, containsSub (lowerChars d) w = false) →
        r.retrieve q k = []) := by
  constructor
  · rintro rfl
    simp [TinyRAG.retrieve]
  · intro h
    have hsc : scoredDocs r.docs q = [] := by
      unfold scoredDocs
      apply List.filter_eq_nil_iff.mpr
      intro x hx
      rcases List.mem_map.mp hx with ⟨d, hd, rfl⟩
      have hz : docScore (tokenize q) d = 0 := by
        unfold docScore
        apply List.countP_eq_zero.mpr
        intro w hw
        simp [h w hw d hd]
      simp [hz]
    simp [TinyRAG.retrieve, hsc, sortDesc]

theorem retrieve_empty_cases_witness :
    TinyRAG.retrieve TinyRAG.init "xyz unrelated term" 3 = []
    ∧ TinyRAG.retrieve TinyRAG.init "cpu" 0 = [] :=
  ⟨(retrieve_empty_cases TinyRAG.init "xyz unrelated term" 3).2 (by decide),
   (retrieve_empty_cases TinyRAG.init "cpu" 0).1 rfl⟩

/-- C6: the assembled prompt contains the incident verbatim as a substring and
contains the context facts joined with a single space verbatim as a substring;
joining the empty fact sequence yields the empty context string. -/
theorem buildPrompt_contains_incident_and_context (incident : String) (facts : List String) :
    strContainsSub (buildPrompt incident (joinContext facts)) incident = true
    ∧ strContainsSub (buildPrompt incident (joinContext facts)) (joinContext facts) = true
    ∧ joinContext [] = "" := by
  refine ⟨?_, ?_, rfl⟩
  · apply strContainsSub_parts _ _ promptHeader.data
      (promptMid.data ++ ((joinContext facts).data ++ promptTail.data))
    simp [buildPrompt, strData_append, List.append_assoc]
  · apply strContainsSub_parts _ _
      (promptHeader.data ++ (incident.data ++ promptMid.data)) promptTail.data
    simp [buildPrompt, strData_append, List.append_assoc]

/-- C9: the pipeline calls the retriever with its default k = 3 — the call
`agentic_self_healing` unfolds to a prompt whose context is joined from
`retrieve incident 3` — and that context list holds at most 3 facts. -/
theorem agentic_uses_default_k (api_key incident : String) (r : TinyRAG)
    (net : NetResult) :
    agentic_self_healing api_key incident r net
      = gemini_generate api_key
          (buildPrompt incident (joinContext (r.retrieve incident 3))) 350 net
    ∧ (r.retrieve incident 3).length ≤ 3 :=
  ⟨rfl, retrieve_len_le_k r incident 3⟩

/-- C10: every returned fact is an element of the store's docs list, no entry
of the result is repeated beyond its multiplicity in the store (for a
duplicate-free store the result is duplicate-free), and the call leaves the
store unchanged. -/
theorem retrieve_store_invariants (r : TinyRAG) (q : String) (k : Nat) :
    (∀ x, (r.retrieve q k).count x ≤ r.docs.count x)
    ∧ (∀ x ∈ r.retrieve q k, x ∈ r.docs)
    ∧ (r.docs.Nodup → (r.retrieve q k).Nodup)
    ∧ (r.retrieveSt q k).2 = r := by
  have hsub : List.Sublist (r.retrieve q k)
      ((sortDesc (scoredDocs r.docs q)).map Prod.snd) :=
    retrieve_sub_docs_filter r q k
  have hperm : List.Perm ((sortDesc (scoredDocs r.docs q)).map Prod.snd)
      ((scoredDocs r.docs q).map Prod.snd) := sortDesc_map_snd_perm _
  have heq : (scoredDocs r.docs q).map Prod.snd
      = r.docs.filter fun d => decide (0 < docScore (tokenize q) d) :=
    scoredDocs_map_snd r.docs q
  refine ⟨?_, ?_, ?_, rfl⟩
  · intro x
    calc (r.retrieve q k).count x
        ≤ ((sortDesc (scoredDocs r.docs q)).map Prod.snd).count x := hsub.count_le x
      _ = ((scoredDocs r.docs q).map Prod.snd).count x := hperm.count_eq x
      _ ≤ r.docs.count x := by
          rw [heq]
          exact (List.filter_sublist _).count_le x
  · intro x hx
    have h2 := hperm.mem_iff.mp (hsub.subset hx)
    rw [heq] at h2
    exact (List.mem_filter.mp h2).1
  · intro hnd
    have h1 : ((scoredDocs r.docs q).map Prod.snd).Nodup := by
      rw [heq]
      exact List.Nodup.filter _ hnd
    exact hsub.nodup (hperm.symm.nodup h1)

theorem retrieve_store_invariants_witness :
    TinyRAG.init.docs.Nodup ∧ (TinyRAG.init.retrieve "disk space alerts" 3).Nodup :=
  ⟨by decide,
   (retrieve_store_invariants TinyRAG.init "disk space alerts" 3).2.2.1 (by decide)⟩

/-! ## Helper lemmas: the Gemini extraction -/

theorem extractFromParts_append (ps1 l : List Json)
    (h : ∀ p ∈ ps1, noUsableText p = true) :
    extractFromParts (ps1 ++ l) = extractFromParts l := by
  induction ps1 with
  | nil => rfl
  | cons p ps ih =>
    have hp := h p (List.mem_cons_self p ps)
    have hrest := fun q hq => h q (List.mem_cons_of_mem p hq)
    cases p with
    | obj pfs =>
      cases hl : lookupField pfs "text" with
      | none => simp [extractFromParts, pyContainsKey, hl, ih hrest]
      | some t =>
        cases t with
        | str s =>
          have hs : s = "" := by
            have := hp
            simp [noUsableText, hl] at this
            exact this
          subst hs
          simp [extractFromParts, pyContainsKey, pyGetItemStr, hl, truthy, ih hrest]
        | null => simp [noUsableText, hl] at hp
        | bool b => simp [noUsableText, hl] at hp
        | num n => simp [noUsableText, hl] at hp
        | arr xs => simp [noUsableText, hl] at hp
        | obj fs2 => simp [noUsableText, hl] at hp
    | null => simp [noUsableText] at hp
    | bool b => simp [noUsableText] at hp
    | num n => simp [noUsableText] at hp
    | str s => simp [noUsableText] at hp
    | arr xs => simp [noUsableText] at hp

theorem extractFromParts_none (ps : List Json)
    (h : ∀ p ∈ ps, noUsableText p = true) :
    extractFromParts ps = Except.ok none := by
  have h1 := extractFromParts_append ps [] h
  simpa using h1

theorem extractFromParts_ok (ps : List Json)
    (h : ∀ p ∈ ps, wellTypedPart p = true) :
    ∃ o, extractFromParts ps = Except.ok o := by
  induction ps with
  | nil => exact ⟨none, rfl⟩
  | cons p ps ih =>
    have hp := h p (List.mem_cons_self p ps)
    have hrest := fun q hq => h q (List.mem_cons_of_mem p hq)
    cases p with
    | obj pfs =>
      cases hl : lookupField pfs "text" with
      | none =>
        rcases ih hrest with ⟨o, ho⟩
        exact ⟨o, by simp [extractFromParts, pyContainsKey, hl, ho]⟩
      | some t =>
        cases t with
        | str s =>
          by_cases hs : s = ""
          · subst hs
            rcases ih hrest with ⟨o, ho⟩
            exact ⟨o, by simp [extractFromParts, pyContainsKey, pyGetItemStr, hl, truthy, ho]⟩
          · exact ⟨some (stripStr s),
              by simp [extractFromParts, pyContainsKey, pyGetItemStr, hl, truthy, hs]⟩
        | null => simp [wellTypedPart, hl] at hp
        | bool b => simp [wellTypedPart, hl] at hp
        | num n => simp [wellTypedPart, hl] at hp
        | arr xs => simp [wellTypedPart, hl] at hp
        | obj fs2 => simp [wellTypedPart, hl] at hp
    | null => simp [wellTypedPart] at hp
    | bool b => simp [wellTypedPart] at hp
    | num n => simp [wellTypedPart] at hp
    | str s => simp [wellTypedPart] at hp
    | arr xs => simp [wellTypedPart] at hp

theorem geminiExtract_via_partsPath (fs : List (String × Json)) (cand : Json)
    (rest ps : List Json)
    (hc : lookupField fs "candidates" = some (Json.arr (cand :: rest)))
    (hp : partsPath cand = some ps) :
    geminiExtract (Json.obj fs)
      = match extractFromParts ps with
        | .error e => .error e
        | .ok (some s) => .ok s
        | .ok none => .ok noUsableTextFallback := by
  cases cand with
  | obj cfs =>
    cases hcontent : (lookupField cfs "content").getD (Json.obj []) with
    | obj ccfs =>
      cases hparts : (lookupField ccfs "parts").getD (Json.arr []) with
      | arr ps2 =>
        have hps : ps2 = ps := by
          have h1 := hp
          simp [partsPath, hcontent, hparts] at h1
          exact h1
        subst hps
        simp [geminiExtract, pyContainsKey, pyGetItemStr, hc, truthy, pyIndexZero,
              pyGetDefault, hcontent, hparts, pyIter]
      | null => simp [partsPath, hcontent, hparts] at hp
      | bool b => simp [partsPath, hcontent, hparts] at hp
      | num n => simp [partsPath, hcontent, hparts] at hp
      | str s => simp [partsPath, hcontent, hparts] at hp
      | obj fs2 => simp [partsPath, hcontent, hparts] at hp
    | null => simp [partsPath, hcontent] at hp
    | bool b => simp [partsPath, hcontent] at hp
    | num n => simp [partsPath, hcontent] at hp
    | str s => simp [partsPath, hcontent] at hp
    | arr xs => simp [partsPath, hcontent] at hp
  | null => simp [partsPath] at hp
  | bool b => simp [partsPath] at hp
  | num n => simp [partsPath] at hp
  | str s => simp [partsPath] at hp
  | arr xs => simp [partsPath] at hp

theorem geminiExtract_ok_of_wellTyped (d : Json) (h : wellTypedResponse d = true) :
    ∃ s, geminiExtract d = Except.ok s := by
  cases d with
  | obj fs =>
    cases hl : lookupField fs "candidates" with
    | none => exact ⟨noUsableTextFallback, by simp [geminiExtract, pyContainsKey, hl]⟩
    | some v =>
      simp only [wellTypedResponse, hl] at h
      cases v with
      | arr cands =>
        cases cands with
        | nil =>
          exact ⟨noUsableTextFallback,
            by simp [geminiExtract, pyContainsKey, pyGetItemStr, hl, truthy]⟩
        | cons cand rest =>
          cases cand with
          | obj cfs =>
            cases hcontent : (lookupField cfs "content").getD (Json.obj []) with
            | obj ccfs =>
              cases hparts : (lookupField ccfs "parts").getD (Json.arr []) with
              | arr ps =>
                have hall : ∀ p ∈ ps, wellTypedPart p = true := by
                  simp only [wellTypedCand, hcontent, hparts] at h
                  simpa using h
                have hpp : partsPath (Json.obj cfs) = some ps := by
                  simp [partsPath, hcontent, hparts]
                rw [geminiExtract_via_partsPath fs _ rest ps hl hpp]
                rcases extractFromParts_ok ps hall with ⟨o, ho⟩
                rw [ho]
                cases o with
                | none => exact ⟨noUsableTextFallback, rfl⟩
                | some s => exact ⟨s, rfl⟩
              | null => simp [wellTypedCand, hcontent, hparts] at h
              | bool b => simp [wellTypedCand, hcontent, hparts] at h
              | num n => simp [wellTypedCand, hcontent, hparts] at h
              | str s => simp [wellTypedCand, hcontent, hparts] at h
              | obj fs2 => simp [wellTypedCand, hcontent, hparts] at h
            | null => simp [wellTypedCand, hcontent] at h
            | bool b => simp [wellTypedCand, hcontent] at h
            | num n => simp [wellTypedCand, hcontent] at h
            | str s => simp [wellTypedCand, hcontent] at h
            | arr xs => simp [wellTypedCand, hcontent] at h
          | null => simp [wellTypedCand] at h
          | bool b => simp [wellTypedCand] at h
          | num n => simp [wellTypedCand] at h
          | str s => simp [wellTypedCand] at h
          | arr xs => simp [wellTypedCand] at h
      | null => simp at h
      | bool b => simp at h
      | num n => simp at h
      | str s => simp at h
      | obj fs2 => simp at h
  | null => simp [wellTypedResponse] at h
  | bool b => simp [wellTypedResponse] at h
  | num n => simp [wellTypedResponse] at h
  | str s => simp [wellTypedResponse] at h
  | arr xs => simp [wellTypedResponse] at h

/-! ## Claim theorems: the Gemini client -/

/-- C1 counterexample: on the parsed response `{"candidates": [1]}` — a
candidates list whose element is not an object — the extraction code reaches
`cand.get("content", {})` with an integer candidate and raises AttributeError
(an integer has no `get` attribute), so `gemini_generate` does not terminate by
returning a string for every response value. -/
theorem gemini_generate_raises_cex :
    gemini_generate "key" "prompt" 300
        (NetResult.success (Json.obj [("candidates", Json.arr [Json.num 1])]))
      = Except.error PyErr.attributeError := rfl

/-- C1 amended: `gemini_generate` raises no exception and returns a string for
every caught network/parse failure (the warning-prefixed string) and for every
parsed response that is WELL-TYPED — a JSON object whose `candidates` field,
when present, is a list that is empty or whose first element is an object with
object-typed `content`, list-typed `parts`, and string-typed `text` fields; for
ill-typed parsed responses the extraction can raise. -/
theorem gemini_generate_total_on_well_typed (api_key prompt : String) (mt : Nat)
    (net : NetResult) (h : netWellTyped net = true) :
    ∃ s : String, gemini_generate api_key prompt mt net = Except.ok s := by
  cases net with
  | failure e => exact ⟨"⚠️ Network/Request error: " ++ e, rfl⟩
  | success d => exact geminiExtract_ok_of_wellTyped d h

theorem gemini_generate_total_witness :
    netWellTyped (NetResult.success (Json.obj [])) = true
    ∧ ∃ s : String, gemini_generate "key" "prompt" 300
        (NetResult.success (Json.obj [])) = Except.ok s :=
  ⟨rfl, gemini_generate_total_on_well_typed "key" "prompt" 300
    (NetResult.success (Json.obj [])) rfl⟩

/-- C7: when the `candidates` key is absent from the parsed response object,
or maps to an empty list, or the first candidate's content/parts structure
contains no non-empty text field, `gemini_generate` returns the fixed
"no usable text" fallback string. -/
theorem gemini_generate_fallback_cases (api_key prompt : String) (mt : Nat)
    (fs : List (String × Json))
    (h : lookupField fs "candidates" = none
       ∨ lookupField fs "candidates" = some (Json.arr [])
       ∨ ∃ cand rest ps,
           lookupField fs "candidates" = some (Json.arr (cand :: rest))
           ∧ partsPath cand = some ps
           ∧ ∀ p ∈ ps, noUsableText p = true) :
    gemini_generate api_key prompt mt (NetResult.success (Json.obj fs))
      = Except.ok noUsableTextFallback := by
  show geminiExtract (Json.obj fs) = Except.ok noUsableTextFallback
  rcases h with h | h | ⟨cand, rest, ps, hc, hp, hn⟩
  · simp [geminiExtract, pyContainsKey, h]
  · simp [geminiExtract, pyContainsKey, pyGetItemStr, h, truthy]
  · rw [geminiExtract_via_partsPath fs cand rest ps hc hp, extractFromParts_none ps hn]

theorem gemini_generate_fallback_witness :
    gemini_generate "key" "prompt" 300
        (NetResult.success (Json.obj [("candidates", Json.arr [])]))
      = Except.ok noUsableTextFallback :=
  gemini_generate_fallback_cases "key" "prompt" 300 [("candidates", Json.arr [])]
    (Or.inr (Or.inl rfl))

/-- C8: when the first candidate's content/parts sequence contains a part whose
`text` field is a non-empty string, preceded only by parts with no usable text,
`gemini_generate` returns that first text with surrounding whitespace
trimmed. -/
theorem gemini_generate_first_text (api_key prompt : String) (mt : Nat)
    (fs : List (String × Json)) (cand : Json) (rest ps1 ps2 : List Json)
    (pfs : List (String × Json)) (s : String)
    (hc : lookupField fs "candidates" = some (Json.arr (cand :: rest)))
    (hp : partsPath cand = some (ps1 ++ Json.obj pfs :: ps2))
    (h1 : ∀ p ∈ ps1, noUsableText p = true)
    (ht : lookupField pfs "text" = some (Json.str s))
    (hs : ¬ s = "") :
    gemini_generate api_key prompt mt (NetResult.success (Json.obj fs))
      = Except.ok (stripStr s) := by
  show geminiExtract (Json.obj fs) = Except.ok (stripStr s)
  rw [geminiExtract_via_partsPath fs cand rest _ hc hp,
      extractFromParts_append ps1 _ h1]
  simp [extractFromParts, pyContainsKey, pyGetItemStr, ht, truthy, hs]

theorem gemini_generate_first_text_witness :
    gemini_generate "key" "prompt" 300
        (NetResult.success (Json.obj [("candidates", Json.arr
          [Json.obj [("content", Json.obj [("parts", Json.arr
            [Json.obj [("text", Json.str "  Plan: restart service  ")]])])]])]))
      = Except.ok "Plan: restart service" := by
  have h := gemini_generate_first_text "key" "prompt" 300
    [("candidates", Json.arr
      [Json.obj [("content", Json.obj [("parts", Json.arr
        [Json.obj [("text", Json.str "  Plan: restart service  ")]])])]])]
    (Json.obj [("content", Json.obj [("parts", Json.arr
      [Json.obj [("text", Json.str "  Plan: restart service  ")]])])])
    [] [] [] [("text", Json.str "  Plan: restart service  ")]
    "  Plan: restart service  " rfl rfl (by simp) rfl (by decide)
  have ht : stripStr "  Plan: restart service  " = "Plan: restart service" := by decide
  rw [ht] at h
  exact h
